import Mathlib

/-!
Formal model of the gha-runner repository (files `clouddeployment.py`,
`interface.py`, `gh.py`): the AWS provider parameter construction, the
`string.Template` substitution used for bootstrap user data, the waiter
call sequences, and the GitHub runner-registry client operations.

Python machinery is embedded shallowly: dictionaries become association
lists, exceptions become `Except` values tagged with the Python exception
class, and randomness / HTTP responses become explicit function or value
parameters.
-/

namespace GhaRunner

/-! ## Model of Python `string.Template` substitution

`Template.substitute` scans the template text for `$$` (an escaped
dollar), `$name` and `$\x7bname\x7d` placeholders, where a name matches
`[_a-zA-Z][_a-zA-Z0-9]*` (ASCII).  A placeholder whose name is missing
from the mapping raises `KeyError`; a `$` not followed by a valid
placeholder raises `ValueError`.  Extra mapping keys are ignored.
The scan is implemented with explicit fuel (the length of the input is
always enough fuel, since every step consumes at least one character). -/

/-- Left brace character (code point 123). -/
def lbrace : Char := Char.ofNat 123

/-- Right brace character (code point 125). -/
def rbrace : Char := Char.ofNat 125

/-- First character of a placeholder identifier: ASCII letter or underscore. -/
def idStart (c : Char) : Bool := c.isAlpha || c = '_'

/-- Continuation character of a placeholder identifier. -/
def idCont (c : Char) : Bool := c.isAlpha || c.isDigit || c = '_'

/-- Longest prefix of identifier-continuation characters, and the rest. -/
def takeId : List Char → List Char × List Char
  | [] => ([], [])
  | c :: cs =>
    if idCont c then
      let p := takeId cs
      (c :: p.1, p.2)
    else ([], c :: cs)

/-- Association-list lookup, mirroring Python dictionary access. -/
def lookupStr : List (String × String) → String → Option String
  | [], _ => none
  | (k, v) :: rest, n => if k = n then some v else lookupStr rest n

/-- A braced placeholder body must be a nonempty identifier. -/
def validName (l : List Char) : Bool :=
  match l with
  | [] => false
  | c :: _ => idStart c

/-- The `KeyError` message raised for a missing mapping key. -/
def keyErr (n : List Char) : String := "KeyError " ++ String.mk n

/-- The `ValueError` message raised for an invalid placeholder. -/
def valueErr : String := "ValueError Invalid placeholder in string"

/-- Fuel-indexed scan performing `Template.substitute`.  With fuel at
least the length of the input the fuel case is never reached. -/
def substAux (m : List (String × String)) : Nat → List Char → Except String (List Char)
  | _, [] => Except.ok []
  | 0, _ :: _ => Except.error "recursion limit"
  | fuel + 1, c :: rest =>
    if c = '$' then
      match rest with
      | [] => Except.error valueErr
      | d :: rest2 =>
        if d = '$' then
          match substAux m fuel rest2 with
          | Except.ok s => Except.ok ('$' :: s)
          | Except.error e => Except.error e
        else if d = lbrace then
          match (takeId rest2).2 with
          | [] => Except.error valueErr
          | b :: rest3 =>
            if b = rbrace then
              if validName (takeId rest2).1 then
                match lookupStr m (String.mk (takeId rest2).1) with
                | some v =>
                  match substAux m fuel rest3 with
                  | Except.ok s => Except.ok (v.data ++ s)
                  | Except.error e => Except.error e
                | none => Except.error (keyErr (takeId rest2).1)
              else Except.error valueErr
            else Except.error valueErr
        else if idStart d then
          match lookupStr m (String.mk (d :: (takeId rest2).1)) with
          | some v =>
            match substAux m fuel (takeId rest2).2 with
            | Except.ok s => Except.ok (v.data ++ s)
            | Except.error e => Except.error e
          | none => Except.error (keyErr (d :: (takeId rest2).1))
        else Except.error valueErr
    else
      match substAux m fuel rest with
      | Except.ok s => Except.ok (c :: s)
      | Except.error e => Except.error e

/-- Fuel-indexed scan collecting, in order, the placeholder names the
substitution consults; the boolean is `false` when the scan stops at a
syntax error (`ValueError`).  It mirrors `substAux` branch for branch
but is independent of the mapping. -/
def tmplScanAux : Nat → List Char → List String × Bool
  | _, [] => ([], true)
  | 0, _ :: _ => ([], false)
  | fuel + 1, c :: rest =>
    if c = '$' then
      match rest with
      | [] => ([], false)
      | d :: rest2 =>
        if d = '$' then tmplScanAux fuel rest2
        else if d = lbrace then
          match (takeId rest2).2 with
          | [] => ([], false)
          | b :: rest3 =>
            if b = rbrace then
              if validName (takeId rest2).1 then
                let q := tmplScanAux fuel rest3
                (String.mk (takeId rest2).1 :: q.1, q.2)
              else ([], false)
            else ([], false)
        else if idStart d then
          let q := tmplScanAux fuel (takeId rest2).2
          (String.mk (d :: (takeId rest2).1) :: q.1, q.2)
        else ([], false)
    else tmplScanAux fuel rest

/-- Model of `Template(t).substitute(m)`. -/
def substitute (m : List (String × String)) (t : List Char) : Except String (List Char) :=
  substAux m t.length t

/-- Placeholder names of a template, with a syntax-ok flag. -/
def tmplScan (t : List Char) : List String × Bool :=
  tmplScanAux t.length t

/-- Model of `AWS.build_user_data`: substitute the mapping into the template,
wrapping any template failure in the message used by the source. -/
def build_user_data (t : List Char) (m : List (String × String)) : Except String String :=
  match substitute m t with
  | Except.ok s => Except.ok (String.mk s)
  | Except.error e => Except.error ("Error parsing user data template: " ++ e)

theorem takeId_snd_length_le (l : List Char) : (takeId l).2.length ≤ l.length := by
  induction l with
  | nil => simp [takeId]
  | cons c cs ih =>
    simp only [takeId]
    by_cases h : idCont c
    · simp only [h, if_true]
      exact Nat.le_succ_of_le ih
    · simp [h]

@[simp] theorem except_isOk_ok {α β : Type} (a : α) :
    (Except.ok a : Except β α).isOk = true := rfl

@[simp] theorem except_isOk_error {α β : Type} (e : β) :
    (Except.error e : Except β α).isOk = false := rfl

theorem substAux_isOk_iff (m : List (String × String)) :
    ∀ fuel t, t.length ≤ fuel →
      ((substAux m fuel t).isOk = true ↔
        ((tmplScanAux fuel t).2 = true ∧
          ∀ n ∈ (tmplScanAux fuel t).1, (lookupStr m n).isSome = true)) := by
  intro fuel
  induction fuel with
  | zero =>
    intro t hlen
    have ht : t = [] := List.length_eq_zero.mp (Nat.le_zero.mp hlen)
    subst ht
    simp [substAux, tmplScanAux]
  | succ fuel ih =>
    intro t hlen
    match t with
    | [] => simp [substAux, tmplScanAux]
    | c :: rest =>
      simp only [List.length_cons, Nat.succ_le_succ_iff] at hlen
      simp only [substAux, tmplScanAux]
      by_cases hc : c = '$'
      case neg =>
        simp only [hc, if_false, ite_false]
        cases hrec : substAux m fuel rest with
        | ok s2 =>
          have := ih rest hlen
          rw [hrec] at this
          simpa using this
        | error e =>
          have := ih rest hlen
          rw [hrec] at this
          simpa using this
      case pos =>
        subst hc
        simp only [if_pos rfl]
        match rest with
        | [] => simp
        | d :: rest2 =>
          simp only [List.length_cons] at hlen
          have hlen2 : rest2.length ≤ fuel := by omega
          by_cases hd : d = '$'
          · subst hd
            simp only [if_pos rfl]
            cases hrec : substAux m fuel rest2 with
            | ok s2 =>
              have := ih rest2 hlen2
              rw [hrec] at this
              simpa using this
            | error e =>
              have := ih rest2 hlen2
              rw [hrec] at this
              simpa using this
          · by_cases hbr : d = lbrace
            · subst hbr
              simp only [hd, if_false, ite_false, if_pos rfl]
              cases hsplit : (takeId rest2).2 with
              | nil => simp
              | cons b rest3 =>
                have hlen3 : rest3.length ≤ fuel := by
                  have h1 := takeId_snd_length_le rest2
                  rw [hsplit] at h1
                  simp only [List.length_cons] at h1
                  omega
                by_cases hb : b = rbrace
                · subst hb
                  simp only [if_pos rfl]
                  by_cases hv : validName (takeId rest2).1
                  · simp only [hv, if_true, ite_true]
                    cases hlook : lookupStr m (String.mk (takeId rest2).1) with
                    | some v =>
                      cases hrec : substAux m fuel rest3 with
                      | ok s2 =>
                        have hiff := ih rest3 hlen3
                        rw [hrec] at hiff
                        have hRHS := hiff.mp rfl
                        simp [hlook, hRHS.1]
                        exact fun n hn => hRHS.2 n hn
                      | error e =>
                        have := ih rest3 hlen3
                        rw [hrec] at this
                        simp only [Except.isOk] at this ⊢
                        simp [← this, hlook]
                    | none =>
                      simp only [Except.isOk]
                      simp [hlook]
                  · simp [hv]
                · simp [hb]
            · by_cases hs : idStart d
              · simp only [hd, hbr, if_false, ite_false, hs, if_true, ite_true]
                have hlent : (takeId rest2).2.length ≤ fuel :=
                  le_trans (takeId_snd_length_le rest2) hlen2
                cases hlook : lookupStr m (String.mk (d :: (takeId rest2).1)) with
                | some v =>
                  cases hrec : substAux m fuel (takeId rest2).2 with
                  | ok s2 =>
                    have hiff := ih (takeId rest2).2 hlent
                    rw [hrec] at hiff
                    have hRHS := hiff.mp rfl
                    simp [hlook, hRHS.1]
                    exact fun n hn => hRHS.2 n hn
                  | error e =>
                    have := ih (takeId rest2).2 hlent
                    rw [hrec] at this
                    simp only [Except.isOk] at this ⊢
                    simp [← this, hlook]
                | none =>
                  simp only [Except.isOk]
                  simp [hlook]
              · simp [hd, hbr, hs]

theorem substAux_congr (m1 m2 : List (String × String)) :
    ∀ fuel t, t.length ≤ fuel →
      (∀ n ∈ (tmplScanAux fuel t).1, lookupStr m1 n = lookupStr m2 n) →
      substAux m1 fuel t = substAux m2 fuel t := by
  intro fuel
  induction fuel with
  | zero =>
    intro t hlen _
    have ht : t = [] := List.length_eq_zero.mp (Nat.le_zero.mp hlen)
    subst ht
    rfl
  | succ fuel ih =>
    intro t hlen hagree
    match t with
    | [] => rfl
    | c :: rest =>
      simp only [List.length_cons, Nat.succ_le_succ_iff] at hlen
      simp only [substAux]
      simp only [tmplScanAux] at hagree
      by_cases hc : c = '$'
      case neg =>
        simp only [hc, if_false, ite_false] at hagree ⊢
        rw [ih rest hlen hagree]
      case pos =>
        subst hc
        simp only [if_pos rfl] at hagree ⊢
        match rest with
        | [] => rfl
        | d :: rest2 =>
          simp only [List.length_cons] at hlen
          have hlen2 : rest2.length ≤ fuel := by omega
          by_cases hd : d = '$'
          · subst hd
            have hagree2 : ∀ n ∈ (tmplScanAux fuel rest2).1,
                lookupStr m1 n = lookupStr m2 n := hagree
            have heq := ih rest2 hlen2 hagree2
            simp [heq]
          · by_cases hbr : d = lbrace
            · subst hbr
              simp only [hd, if_false, ite_false, if_pos rfl] at hagree ⊢
              cases hsplit : (takeId rest2).2 with
              | nil => rfl
              | cons b rest3 =>
                have hlen3 : rest3.length ≤ fuel := by
                  have h1 := takeId_snd_length_le rest2
                  rw [hsplit] at h1
                  simp only [List.length_cons] at h1
                  omega
                rw [hsplit] at hagree
                by_cases hb : b = rbrace
                · subst hb
                  simp only [if_pos rfl] at hagree ⊢
                  by_cases hv : validName (takeId rest2).1
                  · simp only [hv, if_true, ite_true] at hagree ⊢
                    have hhead : lookupStr m1 (String.mk (takeId rest2).1) =
                        lookupStr m2 (String.mk (takeId rest2).1) :=
                      hagree _ (List.mem_cons_self _ _)
                    rw [hhead]
                    cases hlook : lookupStr m2 (String.mk (takeId rest2).1) with
                    | some v =>
                      rw [ih rest3 hlen3 (fun n hn => hagree n (List.mem_cons_of_mem _ hn))]
                    | none => rfl
                  · simp [hv]
                · simp [hb]
            · by_cases hs : idStart d
              · simp only [hd, hbr, if_false, ite_false, hs, if_true, ite_true] at hagree ⊢
                have hlent : (takeId rest2).2.length ≤ fuel :=
                  le_trans (takeId_snd_length_le rest2) hlen2
                have hhead : lookupStr m1 (String.mk (d :: (takeId rest2).1)) =
                    lookupStr m2 (String.mk (d :: (takeId rest2).1)) :=
                  hagree _ (List.mem_cons_self _ _)
                rw [hhead]
                cases hlook : lookupStr m2 (String.mk (d :: (takeId rest2).1)) with
                | some v =>
                  rw [ih (takeId rest2).2 hlent
                    (fun n hn => hagree n (List.mem_cons_of_mem _ hn))]
                | none => rfl
              · simp [hd, hbr, hs]

/-- Success characterisation: `substitute` succeeds exactly when the template scans without a
syntax error and every scanned placeholder name is bound in the mapping. -/
theorem substitute_isOk_iff (m : List (String × String)) (t : List Char) :
    (substitute m t).isOk = true ↔
      ((tmplScan t).2 = true ∧ ∀ n ∈ (tmplScan t).1, (lookupStr m n).isSome = true) :=
  substAux_isOk_iff m t.length t le_rfl

/-- Congruence: `substitute` depends on the mapping only through the scanned names. -/
theorem substitute_congr (m1 m2 : List (String × String)) (t : List Char)
    (h : ∀ n ∈ (tmplScan t).1, lookupStr m1 n = lookupStr m2 n) :
    substitute m1 t = substitute m2 t :=
  substAux_congr m1 m2 t.length t le_rfl h

/-! ## AWS provider parameter construction

`clouddeployment.py` builds the EC2 `run_instances` request in
`AWS.build_aws_params` (called from `AWS.create_instance`);
`interface.py` builds the same request inline in `AWS.create_instance`.
The request dictionary is modelled as an association list from key
strings to `AwsVal` values; the bootstrap template text is an explicit
parameter since the source reads it from a file. -/

/-- A value of the EC2 request dictionary. -/
inductive AwsVal where
  | s (v : String)
  | i (v : Int)
  | ls (v : List String)
  | tagSpecs (v : List (List (String × String)))
  | iamProfile (name : String)
deriving DecidableEq

/-- The `AWS` dataclass of `clouddeployment.py`. -/
structure AWSConfig where
  image_id : String
  instance_type : String
  gh_runner_token : String
  home_dir : String
  repo : String
  tags : List (List (String × String))
  region_name : String
  runner_release : String
  labels : String
  subnet_id : String
  security_group_id : String
  iam_role : String
  script : String
deriving DecidableEq

/-- The `userDataParams` dictionary built in
`clouddeployment.py`'s `AWS.create_instance`. -/
def user_data_params (c : AWSConfig) : List (String × String) :=
  [("token", c.gh_runner_token), ("repo", c.repo), ("homedir", c.home_dir),
   ("script", c.script), ("runner_release", c.runner_release), ("labels", c.labels)]

/-- Model of `AWS.build_aws_params` of `clouddeployment.py`: the mandatory keys in
insertion order, then `SubnetId`, `SecurityGroupIds` and
`IamInstanceProfile` added only when the corresponding field is not the
empty string.  The user data is rendered by `build_user_data`, whose
failure propagates. -/
def build_aws_params (tmpl : List Char) (c : AWSConfig) (count : Int) :
    Except String (List (String × AwsVal)) :=
  match build_user_data tmpl (user_data_params c) with
  | Except.error e => Except.error e
  | Except.ok ud =>
    Except.ok
      ([("ImageId", AwsVal.s c.image_id), ("InstanceType", AwsVal.s c.instance_type),
        ("MinCount", AwsVal.i count), ("MaxCount", AwsVal.i count),
        ("TagSpecifications", AwsVal.tagSpecs c.tags), ("UserData", AwsVal.s ud)]
        ++ (if c.subnet_id = "" then [] else [("SubnetId", AwsVal.s c.subnet_id)])
        ++ (if c.security_group_id = "" then []
            else [("SecurityGroupIds", AwsVal.ls [c.security_group_id])])
        ++ (if c.iam_role = "" then []
            else [("IamInstanceProfile", AwsVal.iamProfile c.iam_role)]))

/-- The `AWS` dataclass of `interface.py` (field names as in that file). -/
structure AWSConfigIF where
  image_id : String
  instance_type : String
  gh_runner_token : String
  homedir : String
  repo : String
  tags : List (List (String × String))
  region_name : String
  runnerRelease : String
  labels : String
  subnet_id : String
  security_group_id : String
  iam_role : String
  script : String
deriving DecidableEq

/-- The `userDataParams` dictionary built in `interface.py`'s
`AWS.create_instance`; note the key `runnerRelease` where
`clouddeployment.py` uses `runner_release`. -/
def iface_user_data_params (c : AWSConfigIF) : List (String × String) :=
  [("token", c.gh_runner_token), ("repo", c.repo), ("homedir", c.homedir),
   ("script", c.script), ("runnerRelease", c.runnerRelease), ("labels", c.labels)]

/-- The request dictionary built inline by `interface.py`'s
`AWS.create_instance`. -/
def iface_create_instance_params (tmpl : List Char) (c : AWSConfigIF) (count : Int) :
    Except String (List (String × AwsVal)) :=
  match build_user_data tmpl (iface_user_data_params c) with
  | Except.error e => Except.error e
  | Except.ok ud =>
    Except.ok
      ([("ImageId", AwsVal.s c.image_id), ("InstanceType", AwsVal.s c.instance_type),
        ("MinCount", AwsVal.i count), ("MaxCount", AwsVal.i count),
        ("TagSpecifications", AwsVal.tagSpecs c.tags), ("UserData", AwsVal.s ud)]
        ++ (if c.subnet_id = "" then [] else [("SubnetId", AwsVal.s c.subnet_id)])
        ++ (if c.security_group_id = "" then []
            else [("SecurityGroupIds", AwsVal.ls [c.security_group_id])])
        ++ (if c.iam_role = "" then []
            else [("IamInstanceProfile", AwsVal.iamProfile c.iam_role)]))

/-- Field correspondence between the two dataclasses
(`home_dir ↔ homedir`, `runner_release ↔ runnerRelease`). -/
def toIF (c : AWSConfig) : AWSConfigIF :=
  ⟨c.image_id, c.instance_type, c.gh_runner_token, c.home_dir, c.repo, c.tags,
   c.region_name, c.runner_release, c.labels, c.subnet_id, c.security_group_id,
   c.iam_role, c.script⟩

/-- Association-list lookup on a request dictionary. -/
def getParam : List (String × AwsVal) → String → Option AwsVal
  | [], _ => none
  | (k, v) :: rest, n => if k = n then some v else getParam rest n

/-- A concrete configuration used to evaluate the AWS model. -/
def cfg0 : AWSConfig :=
  ⟨"ami-0abc", "t2.micro", "ghs-token", "/home/ec2-user", "omsf/gha-runner", [],
   "us-east-1", "https://example.com/runner.tar.gz", "runner-abc12345",
   "subnet-1", "", "", ""⟩

/-- C1: in the request dictionary built by `build_aws_params` (used by
`create_instance`), `SubnetId` is present iff `subnet_id` is nonempty
(with value `subnet_id`), `SecurityGroupIds` iff `security_group_id` is
nonempty (with value the singleton list), and `IamInstanceProfile` iff
`iam_role` is nonempty (with the name object); an empty optional field
leaves the key entirely absent. -/
theorem aws_optional_params_iff (tmpl : List Char) (c : AWSConfig) (count : Int)
    (ps : List (String × AwsVal)) (h : build_aws_params tmpl c count = Except.ok ps) :
    (getParam ps "SubnetId"
        = if c.subnet_id = "" then none else some (AwsVal.s c.subnet_id))
    ∧ (getParam ps "SecurityGroupIds"
        = if c.security_group_id = "" then none
          else some (AwsVal.ls [c.security_group_id]))
    ∧ (getParam ps "IamInstanceProfile"
        = if c.iam_role = "" then none else some (AwsVal.iamProfile c.iam_role))
    ∧ (("SubnetId" ∈ ps.map Prod.fst) ↔ ¬c.subnet_id = "")
    ∧ (("SecurityGroupIds" ∈ ps.map Prod.fst) ↔ ¬c.security_group_id = "")
    ∧ (("IamInstanceProfile" ∈ ps.map Prod.fst) ↔ ¬c.iam_role = "") := by
  unfold build_aws_params at h
  cases hud : build_user_data tmpl (user_data_params c) with
  | error e =>
    rw [hud] at h
    exact absurd h (by simp)
  | ok ud =>
    rw [hud] at h
    simp only [] at h
    injection h with h
    subst h
    by_cases h1 : c.subnet_id = "" <;> by_cases h2 : c.security_group_id = "" <;>
      by_cases h3 : c.iam_role = "" <;>
      simp [h1, h2, h3, getParam]

theorem aws_optional_params_iff_witness :
    ∃ ps, build_aws_params [] cfg0 1 = Except.ok ps ∧
      getParam ps "SubnetId" = some (AwsVal.s "subnet-1") ∧
      getParam ps "SecurityGroupIds" = none ∧
      getParam ps "IamInstanceProfile" = none := by
  cases hps : build_aws_params [] cfg0 1 with
  | error e =>
    have hok : (build_aws_params [] cfg0 1).isOk = true := rfl
    rw [hps] at hok
    exact absurd hok (by simp)
  | ok ps =>
    have h := aws_optional_params_iff [] cfg0 1 ps hps
    exact ⟨ps, rfl, by simpa [cfg0] using h.1, by simpa [cfg0] using h.2.1,
      by simpa [cfg0] using h.2.2.1⟩

/-- C3 counterexample: an extra mapping key that the template never
references does not make `build_user_data` raise; substitution succeeds. -/
theorem build_user_data_extra_key_returns_ok :
    build_user_data ("$token".data) [("token", "T"), ("extra", "X")] = Except.ok "T"
    ∧ "extra" ∉ (tmplScan ("$token".data)).1
    ∧ (lookupStr [("token", "T"), ("extra", "X")] "extra").isSome = true := by
  refine ⟨by rfl, by decide, rfl⟩

/-- C3 (amended): `build_user_data` is a function of the template text
and mapping (determinism is definitional); when it returns a script,
the template scanned without a syntax error and every placeholder name
of the template was bound in the mapping (so nothing is left
unsubstituted); whenever some placeholder name of the template is
missing from the mapping it returns the wrapped template error.  Extra
mapping keys not referenced by the template are ignored. -/
theorem build_user_data_missing_placeholder (t : List Char) (m : List (String × String)) :
    (∀ s, build_user_data t m = Except.ok s →
        (tmplScan t).2 = true ∧ ∀ n ∈ (tmplScan t).1, (lookupStr m n).isSome = true)
    ∧ ((∃ n, n ∈ (tmplScan t).1 ∧ lookupStr m n = none) →
        ∃ e, build_user_data t m = Except.error ("Error parsing user data template: " ++ e)) := by
  constructor
  · intro s hs
    unfold build_user_data at hs
    cases hsub : substitute m t with
    | ok l => exact (substitute_isOk_iff m t).mp (by rw [hsub]; rfl)
    | error e =>
      rw [hsub] at hs
      exact absurd hs (by simp)
  · intro hex
    rcases hex with ⟨n, hn, hnone⟩
    cases hsub : substitute m t with
    | ok l =>
      exfalso
      have hall := (substitute_isOk_iff m t).mp (by rw [hsub]; rfl)
      have hsome := hall.2 n hn
      rw [hnone] at hsome
      exact absurd hsome (by simp)
    | error e =>
      refine ⟨e, ?_⟩
      unfold build_user_data
      rw [hsub]

theorem build_user_data_missing_placeholder_witness :
    ((tmplScan ("$a".data)).2 = true ∧
      ∀ n ∈ (tmplScan ("$a".data)).1, (lookupStr [("a", "V")] n).isSome = true) ∧
    ∃ e, build_user_data ("$missing".data) [] =
        Except.error ("Error parsing user data template: " ++ e) :=
  ⟨(build_user_data_missing_placeholder ("$a".data) [("a", "V")]).1 "V" (by rfl),
   (build_user_data_missing_placeholder ("$missing".data) []).2 ⟨"missing", by decide, rfl⟩⟩

/-- The two `userDataParams` dictionaries agree on every key other than
the two runner-release spellings. -/
theorem user_data_lookup_agree (c : AWSConfig) (n : String)
    (h1 : ¬n = "runner_release") (h2 : ¬n = "runnerRelease") :
    lookupStr (user_data_params c) n = lookupStr (iface_user_data_params (toIF c)) n := by
  have g1 : ¬("runner_release" = n) := fun hh => h1 hh.symm
  have g2 : ¬("runnerRelease" = n) := fun hh => h2 hh.symm
  simp only [user_data_params, iface_user_data_params, toIF, lookupStr]
  simp [g1, g2]

/-- C7 counterexample: on the template `$runner_release` the
`clouddeployment.py` implementation renders the user data and succeeds,
while the `interface.py` implementation (whose mapping key is
`runnerRelease`) raises a template error, so the two create-instance
request constructions disagree for corresponding configurations. -/
theorem create_instance_payload_mismatch :
    (build_aws_params ("$runner_release".data) cfg0 1).isOk = true ∧
    (iface_create_instance_params ("$runner_release".data) (toIF cfg0) 1).isOk = false :=
  ⟨rfl, rfl⟩

/-- C7 (amended): for corresponding configurations and the same count,
the two implementations build identical request payloads whenever the
bootstrap template references neither runner-release placeholder
spelling; they are one implementation up to that placeholder name. -/
theorem create_instance_payload_agree (tmpl : List Char) (c : AWSConfig) (count : Int)
    (h : ∀ n ∈ (tmplScan tmpl).1, ¬n = "runner_release" ∧ ¬n = "runnerRelease") :
    build_aws_params tmpl c count = iface_create_instance_params tmpl (toIF c) count := by
  have hud : build_user_data tmpl (user_data_params c)
      = build_user_data tmpl (iface_user_data_params (toIF c)) := by
    unfold build_user_data
    rw [substitute_congr (user_data_params c) (iface_user_data_params (toIF c)) tmpl
      (fun n hn => user_data_lookup_agree c n (h n hn).1 (h n hn).2)]
  unfold build_aws_params iface_create_instance_params
  rw [← hud]
  cases build_user_data tmpl (user_data_params c) with
  | error e => rfl
  | ok ud => simp [toIF]

theorem create_instance_payload_agree_witness :
    build_aws_params ("$token".data) cfg0 2 =
      iface_create_instance_params ("$token".data) (toIF cfg0) 2 :=
  create_instance_payload_agree ("$token".data) cfg0 2 (by decide)

/-! ## GitHub runner-registry client (`gh.py`)

Exceptions are modelled by `GhErr` (the dedicated classes
`TokenRetrievalError` and `MissingRunnerLabel`, and Python's
`RuntimeError`); the runner listing returned by the hosting service and
the per-runner removal outcome are explicit parameters. -/

inductive GhErr where
  | runtimeError (msg : String)
  | missingRunnerLabel (msg : String)
  | tokenRetrievalError (msg : String)
deriving DecidableEq

/-- The message carried by an exception. -/
def GhErr.message : GhErr → String
  | .runtimeError m => m
  | .missingRunnerLabel m => m
  | .tokenRetrievalError m => m

/-- One label object of a self-hosted runner (the dictionaries returned
by `runner.labels()`; the code reads their `name` field). -/
structure RunnerLabel where
  name : String
deriving DecidableEq

/-- A registered self-hosted runner. -/
structure Runner where
  id : Nat
  labels : List RunnerLabel
deriving DecidableEq

/-- The list comprehension `[l["name"] for l in runner.labels()]`. -/
def labelNames (r : Runner) : List String := r.labels.map RunnerLabel.name

/-- Model of `GitHubInstance.get_runner`: filter the service's runner listing by
label membership and return the first match, or `None`. -/
def get_runner (runners : List Runner) (label : String) : Option Runner :=
  (runners.filter (fun r => (labelNames r).contains label)).head?

/-- Model of `GitHubInstance.get_runners`: the same filter, returning the whole
matched list, or `None` when it is empty. -/
def get_runners (runners : List Runner) (label : String) : Option (List Runner) :=
  let matched := runners.filter (fun r => (labelNames r).contains label)
  if matched.isEmpty then none else some matched

/-- Model of `GitHubInstance.remove_runner`; `removeResult r` is whether the
hosting service reports `remove_self_hosted_runner(r)` succeeded. -/
def remove_runner (runners : List Runner) (removeResult : Runner → Bool)
    (label : String) : Except GhErr Unit :=
  match get_runner runners label with
  | some r =>
    if removeResult r then Except.ok ()
    else Except.error (GhErr.runtimeError ("Error removing runner " ++ label))
  | none => Except.error (GhErr.missingRunnerLabel ("Runner " ++ label ++ " not found"))

/-- C6: when no registered runner carries the label, both lookups
return the absent result `None`; absence is a value, not an exception
(the model functions are total). -/
theorem get_runner_absent_none (runners : List Runner) (label : String)
    (h : ∀ r ∈ runners, label ∉ labelNames r) :
    get_runner runners label = none ∧ get_runners runners label = none := by
  have hfil : runners.filter (fun r => (labelNames r).contains label) = [] := by
    rw [List.filter_eq_nil_iff]
    intro r hr
    simp [List.contains, h r hr]
  constructor
  · rw [get_runner, hfil]
    rfl
  · rw [get_runners]
    simp only [hfil]
    rfl

theorem get_runner_absent_none_witness :
    get_runner [⟨1, [⟨"runner-zzzzzzzz"⟩]⟩] "runner-aaaaaaaa" = none ∧
    get_runners [⟨1, [⟨"runner-zzzzzzzz"⟩]⟩] "runner-aaaaaaaa" = none :=
  get_runner_absent_none [⟨1, [⟨"runner-zzzzzzzz"⟩]⟩] "runner-aaaaaaaa" (by decide)

/-- C10: `get_runner` returns exactly the head of the list that
`get_runners` returns (both filter the same listing in order), and both
are absent together; with several matches `get_runner` picks the first. -/
theorem get_runner_head_of_get_runners (runners : List Runner) (label : String) :
    get_runner runners label = (get_runners runners label).bind List.head? := by
  rw [get_runner, get_runners]
  cases hfil : runners.filter (fun r => (labelNames r).contains label) with
  | nil => rfl
  | cons a l => rfl

/-- C5: `remove_runner` raises `MissingRunnerLabel` exactly when no
runner carries the label; with a match it returns without error iff the
service reports success and raises the removal-failure `RuntimeError`
otherwise; a non-exceptional return guarantees the removal succeeded. -/
theorem remove_runner_spec (runners : List Runner) (removeResult : Runner → Bool)
    (label : String) :
    (get_runner runners label = none →
      remove_runner runners removeResult label =
        Except.error (GhErr.missingRunnerLabel ("Runner " ++ label ++ " not found")))
    ∧ (∀ r, get_runner runners label = some r → removeResult r = true →
        remove_runner runners removeResult label = Except.ok ())
    ∧ (∀ r, get_runner runners label = some r → removeResult r = false →
        remove_runner runners removeResult label =
          Except.error (GhErr.runtimeError ("Error removing runner " ++ label)))
    ∧ (remove_runner runners removeResult label = Except.ok () →
        ∃ r, get_runner runners label = some r ∧ removeResult r = true) := by
  refine ⟨?_, ?_, ?_, ?_⟩
  · intro hnone
    rw [remove_runner, hnone]
  · intro r hr hok
    rw [remove_runner, hr]
    simp [hok]
  · intro r hr hfail
    rw [remove_runner, hr]
    simp [hfail]
  · intro hok
    rw [remove_runner] at hok
    cases hr : get_runner runners label with
    | none =>
      rw [hr] at hok
      exact absurd hok (by simp)
    | some r =>
      rw [hr] at hok
      refine ⟨r, rfl, ?_⟩
      by_cases hrm : removeResult r = true
      · exact hrm
      · simp [hrm] at hok

theorem remove_runner_spec_witness :
    remove_runner [⟨7, [⟨"runner-ab12cd34"⟩]⟩] (fun _ => true) "runner-ab12cd34" =
      Except.ok () ∧
    remove_runner [] (fun _ => true) "runner-ab12cd34" =
      Except.error (GhErr.missingRunnerLabel ("Runner " ++ "runner-ab12cd34" ++ " not found")) :=
  ⟨(remove_runner_spec [⟨7, [⟨"runner-ab12cd34"⟩]⟩] (fun _ => true) "runner-ab12cd34").2.1
      ⟨7, [⟨"runner-ab12cd34"⟩]⟩ (by decide) rfl,
   (remove_runner_spec [] (fun _ => true) "runner-ab12cd34").1 rfl⟩

/-! ## Registration tokens (`create_runner_token(s)`)

`post i` is the outcome of the i-th POST to the registration-token
endpoint: either the parsed JSON body (an association list) or an
exception from the request adapter. -/

/-- Model of `GitHubInstance.create_runner_token`: one POST, extracting the
`token` field; any exception (transport failure, or a missing `token`
field) is wrapped into `TokenRetrievalError`. -/
def create_runner_token (post : Except GhErr (List (String × String))) :
    Except GhErr String :=
  match post with
  | Except.ok res =>
    match lookupStr res "token" with
    | some t => Except.ok t
    | none =>
      Except.error (GhErr.tokenRetrievalError
        ("Error creating runner token: " ++ "KeyError token"))
  | Except.error e =>
    Except.error (GhErr.tokenRetrievalError
      ("Error creating runner token: " ++ e.message))

/-- The loop of `GitHubInstance.create_runner_tokens`, minting one
token per remaining instance starting at call index `i`. -/
def create_runner_tokens_from (post : Nat → Except GhErr (List (String × String))) :
    Nat → Nat → Except GhErr (List String)
  | _, 0 => Except.ok []
  | i, n + 1 =>
    match create_runner_token (post i) with
    | Except.ok t =>
      match create_runner_tokens_from post (i + 1) n with
      | Except.ok ts => Except.ok (t :: ts)
      | Except.error e => Except.error e
    | Except.error e => Except.error e

/-- Model of `GitHubInstance.create_runner_tokens(count)`. -/
def create_runner_tokens (post : Nat → Except GhErr (List (String × String)))
    (count : Nat) : Except GhErr (List String) :=
  create_runner_tokens_from post 0 count

theorem create_runner_tokens_from_spec
    (post : Nat → Except GhErr (List (String × String))) :
    ∀ n i,
      (∀ toks, create_runner_tokens_from post i n = Except.ok toks →
        toks.length = n ∧
        ∀ j, j < n → ∃ res t, post (i + j) = Except.ok res ∧
          lookupStr res "token" = some t ∧ toks[j]? = some t)
      ∧ (∀ e, create_runner_tokens_from post i n = Except.error e →
          ∃ msg, e = GhErr.tokenRetrievalError msg) := by
  intro n
  induction n with
  | zero =>
    intro i
    constructor
    · intro toks htoks
      rw [create_runner_tokens_from] at htoks
      injection htoks with htoks
      subst htoks
      exact ⟨rfl, fun j hj => absurd hj (by omega)⟩
    · intro e he
      rw [create_runner_tokens_from] at he
      exact absurd he (by simp)
  | succ n ih =>
    intro i
    constructor
    · intro toks htoks
      rw [create_runner_tokens_from] at htoks
      cases hpost : post i with
      | error pe =>
        rw [create_runner_token.eq_def, hpost] at htoks
        exact absurd htoks (by simp)
      | ok res =>
        rw [create_runner_token.eq_def, hpost] at htoks
        simp only [] at htoks
        cases hlook : lookupStr res "token" with
        | none =>
          rw [hlook] at htoks
          exact absurd htoks (by simp)
        | some t =>
          rw [hlook] at htoks
          simp only [] at htoks
          cases hrec : create_runner_tokens_from post (i + 1) n with
          | error e =>
            rw [hrec] at htoks
            exact absurd htoks (by simp)
          | ok ts =>
            rw [hrec] at htoks
            simp only [] at htoks
            injection htoks with htoks
            subst htoks
            have hspec := ((ih (i + 1)).1 ts hrec)
            refine ⟨by simp [hspec.1], ?_⟩
            intro j hj
            cases j with
            | zero => exact ⟨res, t, by simpa using hpost, hlook, by simp⟩
            | succ j =>
              have hj2 : j < n := by omega
              rcases hspec.2 j hj2 with ⟨res2, t2, hp2, hl2, hg2⟩
              refine ⟨res2, t2, ?_, hl2, ?_⟩
              · have : i + 1 + j = i + (j + 1) := by omega
                rw [← this]
                exact hp2
              · simpa using hg2
    · intro e he
      rw [create_runner_tokens_from] at he
      cases hpost : post i with
      | error pe =>
        rw [create_runner_token.eq_def, hpost] at he
        simp only [] at he
        injection he with he
        exact ⟨_, he.symm⟩
      | ok res =>
        rw [create_runner_token.eq_def, hpost] at he
        simp only [] at he
        cases hlook : lookupStr res "token" with
        | none =>
          rw [hlook] at he
          simp only [] at he
          injection he with he
          exact ⟨_, he.symm⟩
        | some t =>
          rw [hlook] at he
          simp only [] at he
          cases hrec : create_runner_tokens_from post (i + 1) n with
          | error e2 =>
            rw [hrec] at he
            simp only [] at he
            injection he with he
            subst he
            exact (ih (i + 1)).2 e2 hrec
          | ok ts =>
            rw [hrec] at he
            exact absurd he (by simp)

/-- C8: `create_runner_tokens(count)` consults the token-minting
endpoint once per instance — on success it returns exactly `count`
tokens, the j-th extracted from the j-th POST response — and any
failure surfaces as `TokenRetrievalError`, never as a raw transport
exception. -/
theorem create_runner_tokens_spec
    (post : Nat → Except GhErr (List (String × String))) (count : Nat) :
    (∀ toks, create_runner_tokens post count = Except.ok toks →
      toks.length = count ∧
      ∀ j, j < count → ∃ res t, post j = Except.ok res ∧
        lookupStr res "token" = some t ∧ toks[j]? = some t)
    ∧ (∀ e, create_runner_tokens post count = Except.error e →
        ∃ msg, e = GhErr.tokenRetrievalError msg) := by
  have h := create_runner_tokens_from_spec post count 0
  rw [create_runner_tokens]
  constructor
  · intro toks htoks
    have h1 := h.1 toks htoks
    exact ⟨h1.1, fun j hj => by simpa using h1.2 j hj⟩
  · exact h.2

theorem create_runner_tokens_spec_witness :
    ((["tokA", "tokA"] : List String).length = 2 ∧
      ∀ j, j < 2 → ∃ res t,
        (fun (_ : Nat) => (Except.ok [("token", "tokA")] : Except GhErr (List (String × String)))) j
            = Except.ok res ∧
          lookupStr res "token" = some t ∧ (["tokA", "tokA"] : List String)[j]? = some t) ∧
    ∃ msg, GhErr.tokenRetrievalError ("Error creating runner token: " ++ "boom") =
        GhErr.tokenRetrievalError msg :=
  ⟨(create_runner_tokens_spec
      (fun _ => Except.ok [("token", "tokA")]) 2).1 ["tokA", "tokA"] rfl,
   (create_runner_tokens_spec
      (fun _ => Except.error (GhErr.runtimeError "boom")) 1).2
      (GhErr.tokenRetrievalError ("Error creating runner token: " ++ "boom")) rfl⟩

/-! ## Random runner labels -/

/-- The character pool `string.ascii_lowercase + string.digits`. -/
def letters : List Char := "abcdefghijklmnopqrstuvwxyz0123456789".data

/-- Model of `GitHubInstance.generate_random_label`: eight characters drawn from
the pool by the random source (`random.choice` modelled as an index
into `letters` per draw), prefixed with `runner-`.  The random source
is the only input; the function is otherwise pure. -/
def generate_random_label (choice : Nat → Fin letters.length) : String :=
  "runner-" ++ String.mk ((List.range 8).map (fun i => letters.get (choice i)))

/-- C9: every label is `runner-` followed by exactly 8 characters, each
a lowercase ASCII letter or digit (total length 15), for every random
source. -/
theorem generate_random_label_format (choice : Nat → Fin letters.length) :
    (generate_random_label choice).length = 15 ∧
    (generate_random_label choice).data.take 7 = "runner-".data ∧
    ((generate_random_label choice).data.drop 7).length = 8 ∧
    ∀ c ∈ (generate_random_label choice).data.drop 7, (c.isLower || c.isDigit) = true := by
  have hdata : (generate_random_label choice).data =
      "runner-".data ++ (List.range 8).map (fun i => letters.get (choice i)) := by
    rw [generate_random_label]
    rfl
  have hpre : ("runner-".data).length = 7 := rfl
  refine ⟨?_, ?_, ?_, ?_⟩
  · show (generate_random_label choice).data.length = 15
    rw [hdata]
    simp
  · rw [hdata, List.take_left' hpre]
  · rw [hdata, List.drop_left' hpre]
    simp
  · rw [hdata, List.drop_left' hpre]
    intro c hc
    rcases List.mem_map.mp hc with ⟨i, _, hci⟩
    have hmem : letters.get (choice i) ∈ letters := letters.get_mem _ _
    have hall : ∀ x ∈ letters, (x.isLower || x.isDigit) = true := by decide
    rw [← hci]
    exact hall _ hmem

theorem generate_random_label_format_witness :
    (generate_random_label (fun _ => (⟨0, by decide⟩ : Fin letters.length))).length = 15 ∧
    ∀ c ∈ (generate_random_label
        (fun _ => (⟨0, by decide⟩ : Fin letters.length))).data.drop 7,
      (c.isLower || c.isDigit) = true :=
  ⟨(generate_random_label_format (fun _ => (⟨0, by decide⟩ : Fin letters.length))).1,
   (generate_random_label_format (fun _ => (⟨0, by decide⟩ : Fin letters.length))).2.2.2⟩

/-! ## EC2 waiter call sequences

`wait_until_ready` and `wait_until_removed` are modelled by the list of
`waiter.wait` calls they issue, in order; `none` as the configuration
means the waiter's default configuration (no `WaiterConfig` argument). -/

structure WaitCall where
  waiterName : String
  instanceIds : List String
  waiterConfig : Option (List (String × Int))
deriving DecidableEq

/-- Model of `AWS.wait_until_ready`: a single wait on the `instance_running`
waiter, configured with the caller's poll options when any were passed
and with the defaults otherwise. -/
def wait_until_ready (ids : List String) (kwargs : List (String × Int)) : List WaitCall :=
  if kwargs.isEmpty then [⟨"instance_running", ids, none⟩]
  else [⟨"instance_running", ids, some kwargs⟩]

/-- Model of `AWS.wait_until_removed` as written in both source files: an
unconditional default-configured `waiter.wait(InstanceIds=ids)` on the
`instance_terminated` waiter, followed by the conditional wait that
mirrors `wait_until_ready`. -/
def wait_until_removed (ids : List String) (kwargs : List (String × Int)) : List WaitCall :=
  ⟨"instance_terminated", ids, none⟩ ::
    (if kwargs.isEmpty then [⟨"instance_terminated", ids, none⟩]
     else [⟨"instance_terminated", ids, some kwargs⟩])

/-- C2 (evidence of the code bug): with poll options supplied,
`wait_until_removed` issues two waits — a default-configured one and
then the configured one — whereas the claimed symmetric behaviour
(`wait_until_ready`) issues exactly one; with no options it issues the
default wait twice. -/
theorem wait_until_removed_double_wait :
    wait_until_removed ["i-0123"] [("MaxAttempts", 5)] =
      [⟨"instance_terminated", ["i-0123"], none⟩,
       ⟨"instance_terminated", ["i-0123"], some [("MaxAttempts", 5)]⟩] ∧
    (wait_until_removed ["i-0123"] [("MaxAttempts", 5)]).length = 2 ∧
    wait_until_ready ["i-0123"] [("MaxAttempts", 5)] =
      [⟨"instance_running", ["i-0123"], some [("MaxAttempts", 5)]⟩] ∧
    wait_until_removed ["i-0123"] [] =
      [⟨"instance_terminated", ["i-0123"], none⟩,
       ⟨"instance_terminated", ["i-0123"], none⟩] :=
  ⟨rfl, rfl, rfl, rfl⟩

/-! ## Latest runner release lookup -/

/-- Python substring containment (the `in` operator on strings). -/
def containsSub : List Char → List Char → Bool
  | [], needle => needle.isEmpty
  | c :: t, needle => needle.isPrefixOf (c :: t) || containsSub t needle

/-- A Python exception: its class and its message. -/
structure PyExc where
  cls : String
  msg : String
deriving DecidableEq

/-- A published release asset. -/
structure Asset where
  name : String
  browser_download_url : String
deriving DecidableEq

/-- The scan loop of `GitHubInstance.get_latest_runner_release`. -/
def findAsset (platform architecture : String) : List Asset → Option String
  | [] => none
  | a :: rest =>
    if containsSub a.name.data platform.data && containsSub a.name.data architecture.data
    then some a.browser_download_url
    else findAsset platform architecture rest

/-- Model of `GitHubInstance.get_latest_runner_release` applied to the latest
release's asset listing. -/
def get_latest_runner_release (platform architecture : String) (assets : List Asset) :
    Except PyExc String :=
  match findAsset platform architecture assets with
  | some url => Except.ok url
  | none =>
    Except.error ⟨"RuntimeError",
      "Runner not found for " ++ platform ++ " and " ++ architecture⟩

/-- An HTTP response as seen by `_do_request`. -/
structure HttpResponse where
  ok : Bool
  content : String
  body : List (String × String)

/-- Model of `GitHubInstance._do_request`: a non-success response raises a
`RuntimeError` carrying the endpoint URL and the raw response body. -/
def do_request (endpoint_url : String) (resp : HttpResponse) :
    Except PyExc (List (String × String)) :=
  if resp.ok then Except.ok resp.body
  else Except.error ⟨"RuntimeError",
    "Error in API call for " ++ endpoint_url ++ ": " ++ resp.content⟩

/-- C4 counterexample: the not-found failure of
`get_latest_runner_release` and the transport failure raised by
`_do_request` are the same exception class (`RuntimeError`), so the two
conditions are not distinct at the exception-type level — only the
messages differ. -/
theorem runner_notfound_same_exception_class :
    get_latest_runner_release "linux" "x64" [] =
      Except.error ⟨"RuntimeError", "Runner not found for linux and x64"⟩ ∧
    do_request "https://api.github.com/repos/o/r" ⟨false, "boom", []⟩ =
      Except.error ⟨"RuntimeError",
        "Error in API call for https://api.github.com/repos/o/r: boom"⟩ ∧
    PyExc.cls ⟨"RuntimeError", "Runner not found for linux and x64"⟩ =
      PyExc.cls ⟨"RuntimeError",
        "Error in API call for https://api.github.com/repos/o/r: boom"⟩ :=
  ⟨rfl, rfl, rfl⟩

/-- C4 (amended): `get_latest_runner_release` returns the download URL
of the first asset (in listing order) whose name contains both the
platform and the architecture substrings, and raises the
`Runner not found ...` `RuntimeError` when no asset matches — an error
distinguishable from the request adapter's transport error only by its
message, since both are `RuntimeError`. -/
theorem get_latest_runner_release_first_match (platform architecture : String)
    (assets : List Asset) :
    get_latest_runner_release platform architecture assets =
      match assets.find? (fun a => containsSub a.name.data platform.data
          && containsSub a.name.data architecture.data) with
      | some a => Except.ok a.browser_download_url
      | none =>
        Except.error ⟨"RuntimeError",
          "Runner not found for " ++ platform ++ " and " ++ architecture⟩ := by
  have h : findAsset platform architecture assets =
      (assets.find? (fun a => containsSub a.name.data platform.data
        && containsSub a.name.data architecture.data)).map Asset.browser_download_url := by
    induction assets with
    | nil => rfl
    | cons a rest ih =>
      rw [findAsset.eq_def, List.find?]
      by_cases hc : (containsSub a.name.data platform.data
          && containsSub a.name.data architecture.data) = true
      · simp [hc]
      · simp only [hc]
        simp only [Bool.not_eq_true] at hc
        simp [hc, ih]
  rw [get_latest_runner_release, h]
  cases assets.find? (fun a => containsSub a.name.data platform.data
      && containsSub a.name.data architecture.data) with
  | none => rfl
  | some a => rfl

end GhaRunner
